import Mathlib

/-!
Verification of the draft-grid construction core of `src/app/draft_board.py`
(NFFC Draft Board).

Shallow-embedding conventions:
* Python `None` / pandas `NaN` in a field is `Option.none`.
* Python integers are `ℤ`; the float arithmetic inside `rank_color` is
  modelled exactly over `ℚ` (every quantity involved is a small rational,
  far from any double-rounding boundary).
* A pandas DataFrame of picks is a `List Pick` in row order.
* Fallible pandas operations (`int(NaN)`, column access on an empty frame,
  `DataFrame.pivot` on duplicate coordinates) are modelled by `Option`:
  `none` is the raised exception.
* `pandas.DataFrame.sort_values` is modelled by a stable insertion sort;
  every input considered here has pairwise-distinct sort keys, for which
  all sorting algorithms agree.

The column-header construction of `build_board` (source lines 164-196) is
not modelled: it feeds only the header labels, which no statement below
refers to.
-/

/-- One row of the `view_draft_board` query as consumed by `build_board`
(the columns selected in `fetch_draft`, source lines 108-111). -/
structure Pick where
  round : ℤ
  pick_in_round : ℤ
  overall_pick : ℤ
  team_id : ℤ
  draft_order : Option ℤ
  league_rank : Option ℚ
  league_points : Option ℚ
  first_name : Option String
  last_name : Option String
  position : Option String
  team : Option String
  deriving DecidableEq

/-- `_safe` (source line 136-137): `"" if pd.isna(val) else str(val)`. -/
def pysafe : Option String → String
  | none => ""
  | some s => s

/-- The characters removed by CPython `str.strip()`: the Unicode
whitespace of `Py_UNICODE_ISSPACE` — ASCII whitespace, the separators
U+001C-U+001F, next line U+0085, no-break space U+00A0, Ogham space mark
U+1680, the U+2000-U+200A spaces, line/paragraph separators U+2028 and
U+2029, U+202F, U+205F and ideographic space U+3000. -/
def isPySpace (c : Char) : Bool :=
  c == ' ' || c == '\t' || c == '\n' || c == '\r' || c == '\x0b' || c == '\x0c'
    || c == '\x1c' || c == '\x1d' || c == '\x1e' || c == '\x1f'
    || c == '\x85' || c == '\xa0' || c == '\u1680'
    || (0x2000 ≤ c.toNat && c.toNat ≤ 0x200a)
    || c == '\u2028' || c == '\u2029' || c == '\u202f' || c == '\u205f'
    || c == '\u3000'

/-- Python `str.strip()` on the underlying character list: drop whitespace
from the front, then from the back. -/
def pystripList (l : List Char) : List Char :=
  ((l.dropWhile isPySpace).reverse.dropWhile isPySpace).reverse

/-- Python `str.strip()`. -/
def pystrip (s : String) : String := String.mk (pystripList s.data)

/-- `cell_text` (source lines 139-146): display text of one pick,
`"First Last\nPOS · TEAM (overall)"`.  The name portion is
`f"{fn} {ln}".strip() or "—"`: the em-dash placeholder exactly when the
stripped concatenation is empty. -/
def cell_text (r : Pick) : String :=
  let fn := pysafe r.first_name
  let ln := pysafe r.last_name
  let stripped := pystrip (fn ++ " " ++ ln)
  let name := if stripped = "" then "—" else stripped
  let pos := pysafe r.position
  let team := pysafe r.team
  let ovr := r.overall_pick
  name ++ "\n" ++ pos ++ " · " ++ team ++ " (" ++ toString ovr ++ ")"

/-- The cell-text template exactly as claim C5 words it: every absent field
is coerced to `""`, the name portion is the literal `"{first} {last}"`
interpolation, with the `"—"` placeholder only when both name fields are
blank or missing.  (Spec-side definition, used to compare against
`cell_text`.) -/
def cell_text_claim (r : Pick) : String :=
  let fn := pysafe r.first_name
  let ln := pysafe r.last_name
  let name := if fn = "" ∧ ln = "" then "—" else fn ++ " " ++ ln
  let pos := pysafe r.position
  let team := pysafe r.team
  let ovr := r.overall_pick
  name ++ "\n" ++ pos ++ " · " ++ team ++ " (" ++ toString ovr ++ ")"

/-- The normalisation step of `rank_color` (source line 206):
`t = (rank - 1) / max(total - 1, 1)`. -/
def rank_t (rank total : ℤ) : ℚ :=
  ((rank : ℚ) - 1) / ((max (total - 1) 1 : ℤ) : ℚ)

/-- The hue computed by `rank_color` (source line 208): `120 * (1 - t)`. -/
def rank_hue (rank total : ℤ) : ℚ := 120 * (1 - rank_t rank total)

/-- Round-half-to-even, the rounding used by Python `format(x, ".0f")`. -/
def roundHalfEven (q : ℚ) : ℤ :=
  let f := ⌊q⌋
  if q - f < 1/2 then f
  else if q - f > 1/2 then f + 1
  else if f % 2 = 0 then f else f + 1

/-- The background string of `rank_color` (source line 210):
`f"hsl({hue:.0f}, 75%, 38%)"`. -/
def hsl_string (hue : ℚ) : String :=
  "hsl(" ++ toString (roundHalfEven hue) ++ ", 75%, 38%)"

/-- `rank_color` (source lines 202-211).  `rank` is the column's league
rank (`none` when absent), `total` the number of slots (the Python default
is 12).  Returns the `(background, text_color)` pair. -/
def rank_color (rank : Option ℤ) (total : ℤ) : String × String :=
  match rank with
  | none => ("#6c757d", "#fff")
  | some r => (hsl_string (rank_hue r total), "#fff")

/-- Python dict assignment `m[k] = v`, the map modelled as a function. -/
def dict_update (m : ℤ → Option ℤ) (k v : ℤ) : ℤ → Option ℤ :=
  fun x => if x = k then some v else m x

/-- Stable insertion of a pick into a list sorted ascending by
`pick_in_round` (the earlier-input pick stays in front on equal keys). -/
def insertByPir (p : Pick) : List Pick → List Pick
  | [] => [p]
  | q :: qs =>
    if q.pick_in_round < p.pick_in_round then q :: insertByPir p qs
    else p :: q :: qs

/-- Stable ascending sort by `pick_in_round`, modelling
`sort_values("pick_in_round")` (source line 128). -/
def sortByPir : List Pick → List Pick
  | [] => []
  | p :: ps => insertByPir p (sortByPir ps)

/-- `r1 = df[df["round"] == 1].sort_values("pick_in_round")`
(source line 128). -/
def sortR1 (picks : List Pick) : List Pick :=
  sortByPir (picks.filter (fun p => p.round == 1))

/-- `team_to_slot = {tid: i + 1 for i, tid in enumerate(r1["team_id"])}`
(source line 129): a dict comprehension, so a later binding of the same
`team_id` overwrites an earlier one. -/
def team_to_slot (r1 : List Pick) : ℤ → Option ℤ :=
  r1.enum.foldl (fun m e => dict_update m e.2.team_id ((e.1 : ℤ) + 1))
    (fun _ => none)

/-- Source lines 127-130 of `build_board`: when every pick lacks
`draft_order` (pandas `isna().all()`), derive slots from round-1 pick
order; otherwise the picks pass through unchanged.  `Series.map` with a
dict yields `NaN` (here `none`) for a `team_id` missing from the dict. -/
def resolve_orders (picks : List Pick) : List Pick :=
  if picks.all (fun p => p.draft_order.isNone) then
    picks.map (fun p =>
      { p with draft_order := team_to_slot (sortR1 picks) p.team_id })
  else picks

/-- The `(round, draft_order)` coordinate of a pick.  `DataFrame.pivot`
treats two rows with equal coordinates (`NaN` coordinates included) as
duplicates and raises `ValueError`. -/
def coord (p : Pick) : ℤ × Option ℤ := (p.round, p.draft_order)

/-- Python `range(a, b)` over `ℤ`, as used by the grid `reindex`
(source lines 152-155). -/
def pyrange (a b : ℤ) : List ℤ :=
  (List.range (b - a).toNat).map (fun (i : ℕ) => a + (i : ℤ))

/-- The text-grid cell at `(r, s)` after pivot / reindex / `fillna("")`:
the cell text of the pick at that coordinate, `""` when no pick has it.
(Inside a successful pivot the coordinates are pairwise distinct, so
`find?` selects the unique matching pick.) -/
def textAt (ps : List Pick) (r s : ℤ) : String :=
  match ps.find? (fun p => p.round == r && p.draft_order == some s) with
  | some p => cell_text p
  | none => ""

/-- The position-grid cell at `(r, s)`: the raw `position` string of the
pick at that coordinate (`fillna("")` turns both a missing pick and a
missing position into `""`). -/
def posAt (ps : List Pick) (r s : ℤ) : String :=
  match ps.find? (fun p => p.round == r && p.draft_order == some s) with
  | some p => pysafe p.position
  | none => ""

/-- The output of `build_board` used downstream: the two aligned grids and
`num_slots`.  (The header labels and `col_ranks`, source lines 164-196,
are not modelled; no statement below mentions them.) -/
structure BoardOut where
  text_grid : List (List String)
  pos_grid : List (List String)
  num_slots : ℤ
  deriving DecidableEq

/-- `build_board` (source lines 122-198), modulo the unmodelled headers.
`none` models a raised exception:
* an empty pick list (`pd.DataFrame([])` has no columns, so the column
  access `df["draft_order"]` on line 127 raises `KeyError`);
* `int(df["draft_order"].max())` on line 132 raises when every
  `draft_order` is `NaN` (`int(nan)` is a `ValueError`);
* `df.pivot(...)` on lines 151 and 158 raises `ValueError` when two rows
  share a `(round, draft_order)` coordinate. -/
def build_board (picks : List Pick) : Option BoardOut :=
  if picks.isEmpty then none
  else
    let ps := resolve_orders picks
    match (ps.filterMap (fun p => p.draft_order)).max?,
        (ps.map (fun p => p.round)).max? with
    | some ns, some mr =>
      if (ps.map coord).Nodup then
        some
          { text_grid :=
              (pyrange 1 (mr + 1)).map (fun r =>
                (pyrange 1 (ns + 1)).map (fun s => textAt ps r s))
            pos_grid :=
              (pyrange 1 (mr + 1)).map (fun r =>
                (pyrange 1 (ns + 1)).map (fun s => posAt ps r s))
            num_slots := ns }
      else none
    | _, _ => none

/-- Result of the `draft_board` fragment for a fetched pick list. -/
inductive ViewResult where
  | warning (msg : String)
  | board (b : Option BoardOut)
  deriving DecidableEq

/-- The picks-dependent part of the `draft_board` fragment (source lines
305-319): an empty pick list short-circuits to the "no data" warning
(`if not picks`, line 308) before `build_board` is ever reached; otherwise
the board is built from the picks. -/
def draft_board_view (picks : List Pick) : ViewResult :=
  if picks.isEmpty then ViewResult.warning "No draft data found for this league."
  else ViewResult.board (build_board picks)

lemma rank_hue_12_eval (r : ℤ) : rank_hue r 12 = 120 * (1 - ((r : ℚ) - 1) / 11) := by
  unfold rank_hue rank_t
  have h : max ((12 : ℤ) - 1) 1 = 11 := by decide
  rw [h]
  norm_num

/-- C6: for a present rank in `[1, totalSlots]`, `rank_color` returns the
background `hsl` string of hue `120 * (1 - (rank - 1) / max(totalSlots - 1, 1))`
with white foreground; rank 1 has hue 120, rank `totalSlots` has hue 0 (once
`totalSlots ≥ 2`), and `totalSlots = 1` gives `t = 0` and hue 120 (the
denominator floor of 1 prevents any division by zero). -/
theorem rank_color_formula (r total : ℤ) (h1 : 1 ≤ r) (h2 : r ≤ total) :
    rank_color (some r) total = (hsl_string (rank_hue r total), "#fff")
    ∧ rank_hue 1 total = 120
    ∧ (2 ≤ total → rank_hue total total = 0)
    ∧ (total = 1 → rank_t r total = 0 ∧ rank_hue r total = 120)
    ∧ rank_color (some 1) 1 = ("hsl(120, 75%, 38%)", "#fff") := by
  have hone : ∀ t : ℤ, rank_hue 1 t = 120 := by
    intro t
    unfold rank_hue rank_t
    norm_num
  refine ⟨rfl, hone total, ?_, ?_, ?_⟩
  · intro h3
    unfold rank_hue rank_t
    have hm : max (total - 1) 1 = total - 1 := max_eq_left (by omega)
    rw [hm]
    have hne : ((total : ℚ) - 1) ≠ 0 := by
      have h4 : (2 : ℚ) ≤ (total : ℚ) := by exact_mod_cast h3
      intro hc
      linarith
    push_cast
    rw [div_self hne]
    ring
  · intro h3
    subst h3
    have hr : r = 1 := by omega
    subst hr
    refine ⟨?_, hone 1⟩
    unfold rank_t
    norm_num
  · have h120 : rank_hue 1 1 = 120 := hone 1
    have hrd : roundHalfEven (rank_hue 1 1) = 120 := by
      rw [h120]
      unfold roundHalfEven
      norm_num
    simp only [rank_color, hsl_string, hrd]
    rfl

/-- Witness for `rank_color_formula` at `rank = 1`, `totalSlots = 12`. -/
theorem rank_color_formula_witness :
    rank_color (some 1) 12 = (hsl_string (rank_hue 1 12), "#fff")
    ∧ rank_hue 1 12 = 120
    ∧ (2 ≤ (12 : ℤ) → rank_hue 12 12 = 0)
    ∧ ((12 : ℤ) = 1 → rank_t 1 12 = 0 ∧ rank_hue 1 12 = 120)
    ∧ rank_color (some 1) 1 = ("hsl(120, 75%, 38%)", "#fff") :=
  rank_color_formula 1 12 (by norm_num) (by norm_num)

/-- C7: the hue is strictly decreasing in the rank (for any fixed
`totalSlots ≥ 2`); for `totalSlots = 12` rank 1 has hue 120, rank 12 hue 0,
and ranks 6 and 7 are exactly the ranks whose hue is nearest the yellow
midpoint 60 (nearness measured by the squared distance, tied between the
two). -/
theorem rank_hue_monotone (total r1 r2 : ℤ) (ht : 2 ≤ total) (ha : 1 ≤ r1)
    (hab : r1 < r2) (hb : r2 ≤ total) :
    rank_hue r2 total < rank_hue r1 total
    ∧ rank_hue 1 12 = 120 ∧ rank_hue 12 12 = 0
    ∧ (∀ r : ℤ, 1 ≤ r → r ≤ 12 →
        (rank_hue 6 12 - 60) ^ 2 ≤ (rank_hue r 12 - 60) ^ 2
        ∧ (rank_hue 7 12 - 60) ^ 2 ≤ (rank_hue r 12 - 60) ^ 2)
    ∧ (rank_hue 6 12 - 60) ^ 2 = (rank_hue 7 12 - 60) ^ 2 := by
  refine ⟨?_, by simp only [rank_hue_12_eval]; norm_num,
      by simp only [rank_hue_12_eval]; norm_num, ?_,
      by simp only [rank_hue_12_eval]; norm_num⟩
  · unfold rank_hue rank_t
    have hm : max (total - 1) 1 = total - 1 := max_eq_left (by omega)
    rw [hm]
    have hd : (0 : ℚ) < ((total - 1 : ℤ) : ℚ) := by
      have h0 : (0 : ℤ) < total - 1 := by omega
      exact_mod_cast h0
    have hr : ((r1 : ℚ) - 1) < ((r2 : ℚ) - 1) := by
      have hc : (r1 : ℚ) < (r2 : ℚ) := by exact_mod_cast hab
      linarith
    have hdiv := (div_lt_div_iff_of_pos_right hd).mpr hr
    linarith
  · intro r hr1 hr2
    interval_cases r <;>
      exact ⟨by simp only [rank_hue_12_eval]; norm_num,
        by simp only [rank_hue_12_eval]; norm_num⟩

/-- Witness for `rank_hue_monotone` at `totalSlots = 12`, ranks 1 and 2. -/
theorem rank_hue_monotone_witness :
    rank_hue 2 12 < rank_hue 1 12
    ∧ rank_hue 1 12 = 120 ∧ rank_hue 12 12 = 0
    ∧ (∀ r : ℤ, 1 ≤ r → r ≤ 12 →
        (rank_hue 6 12 - 60) ^ 2 ≤ (rank_hue r 12 - 60) ^ 2
        ∧ (rank_hue 7 12 - 60) ^ 2 ≤ (rank_hue r 12 - 60) ^ 2)
    ∧ (rank_hue 6 12 - 60) ^ 2 = (rank_hue 7 12 - 60) ^ 2 :=
  rank_hue_monotone 12 1 2 (by norm_num) (by norm_num) (by norm_num) (by norm_num)

/-- C8: an absent rank always yields the fixed neutral mid-gray/white pair,
whatever `totalSlots` is. -/
theorem rank_color_absent (total : ℤ) :
    rank_color none total = ("#6c757d", "#fff") := rfl

/-- Counterexample to C10 as stated: at `totalSlots = 1`, `rank = 2` the
precondition `rank ∈ [1, totalSlots]` is violated (`1 < 2`), yet the
computed hue is `0`, not negative — the denominator floor of 1 makes
`t = 1` exactly. -/
theorem rank_hue_zero_beyond_single_slot : (1 : ℤ) < 2 ∧ rank_hue 2 1 = 0 := by
  refine ⟨by norm_num, ?_⟩
  unfold rank_hue rank_t
  have h : max ((1 : ℤ) - 1) 1 = 1 := by decide
  rw [h]
  norm_num

/-- C10, amended: `rank_color` is total with white foreground for every
`rank ≥ 1`, `totalSlots ≥ 1`, and applies no clamping: for
`rank > totalSlots` the hue is `≤ 0` (so outside the green..red band
`(0, 120]`), strictly negative whenever `totalSlots ≥ 2`, and — in the
single remaining family `totalSlots = 1` — strictly negative from
`rank = 3` on (the boundary point `totalSlots = 1`, `rank = 2` has hue
exactly 0). -/
theorem rank_color_total_and_unclamped (r total : ℤ) (h1 : 1 ≤ r)
    (h2 : 1 ≤ total) :
    (rank_color (some r) total).2 = "#fff"
    ∧ (total < r → rank_hue r total ≤ 0)
    ∧ (total < r → 2 ≤ total → rank_hue r total < 0)
    ∧ (total = 1 → 3 ≤ r → rank_hue r total < 0) := by
  refine ⟨rfl, ?_, ?_, ?_⟩
  · intro hlt
    unfold rank_hue rank_t
    have hd0 : (0 : ℚ) < ((max (total - 1) 1 : ℤ) : ℚ) := by
      have h0 : (0 : ℤ) < max (total - 1) 1 := by
        have := le_max_right (total - 1) 1
        omega
      exact_mod_cast h0
    have hle : ((max (total - 1) 1 : ℤ) : ℚ) ≤ (r : ℚ) - 1 := by
      have hz : max (total - 1) 1 ≤ r - 1 := by
        rcases max_cases (total - 1) 1 with ⟨he, _⟩ | ⟨he, _⟩ <;> omega
      have hc : ((max (total - 1) 1 : ℤ) : ℚ) ≤ ((r - 1 : ℤ) : ℚ) := by
        exact_mod_cast hz
      push_cast at hc
      push_cast
      linarith
    have ht1 := (one_le_div hd0).mpr hle
    linarith
  · intro hlt h2t
    unfold rank_hue rank_t
    have hm : max (total - 1) 1 = total - 1 := max_eq_left (by omega)
    rw [hm]
    have hd0 : (0 : ℚ) < ((total - 1 : ℤ) : ℚ) := by
      have h0 : (0 : ℤ) < total - 1 := by omega
      exact_mod_cast h0
    have hlt2 : ((total - 1 : ℤ) : ℚ) < (r : ℚ) - 1 := by
      have hz : total - 1 < r - 1 := by omega
      have hc : ((total - 1 : ℤ) : ℚ) < ((r - 1 : ℤ) : ℚ) := by
        exact_mod_cast hz
      push_cast at hc
      push_cast
      linarith
    have ht1 := (one_lt_div hd0).mpr hlt2
    linarith
  · intro h1t h3
    subst h1t
    unfold rank_hue rank_t
    have hm : max ((1 : ℤ) - 1) 1 = 1 := by decide
    rw [hm]
    have hc : (3 : ℚ) ≤ (r : ℚ) := by exact_mod_cast h3
    have : ((r : ℚ) - 1) / ((1 : ℤ) : ℚ) = (r : ℚ) - 1 := by
      push_cast
      exact div_one _
    rw [this]
    linarith

/-- Witness for `rank_color_total_and_unclamped` at `rank = 13`,
`totalSlots = 12`. -/
theorem rank_color_total_and_unclamped_witness :
    (rank_color (some 13) 12).2 = "#fff"
    ∧ ((12 : ℤ) < 13 → rank_hue 13 12 ≤ 0)
    ∧ ((12 : ℤ) < 13 → 2 ≤ (12 : ℤ) → rank_hue 13 12 < 0)
    ∧ ((12 : ℤ) = 1 → 3 ≤ (13 : ℤ) → rank_hue 13 12 < 0) :=
  rank_color_total_and_unclamped 13 12 (by norm_num) (by norm_num)

/-- Abbreviation for building a concrete pick record (league rank/points
play no role in any statement below and stay absent). -/
def mkPick (round pir ovr tid : ℤ) (ord : Option ℤ)
    (fn ln pos tm : Option String) : Pick :=
  { round := round, pick_in_round := pir, overall_pick := ovr,
    team_id := tid, draft_order := ord, league_rank := none,
    league_points := none, first_name := fn, last_name := ln,
    position := pos, team := tm }

/-- The pick of the spec's worked example: Josh Allen, QB, BUF, overall 5. -/
def joshAllen : Pick :=
  mkPick 1 5 5 1 (some 5) (some "Josh") (some "Allen") (some "QB") (some "BUF")

/-- A pick whose `firstName` is absent while `lastName` is present. -/
def halfName : Pick :=
  mkPick 1 1 5 1 (some 1) none (some "Allen") (some "QB") (some "BUF")

/-- A pick with both name fields blank or missing. -/
def blankPick : Pick :=
  mkPick 2 3 17 4 (some 2) none (some "") (some "RB") none

lemma length_dropWhile_le_char (p : Char → Bool) (l : List Char) :
    (l.dropWhile p).length ≤ l.length := by
  induction l with
  | nil => simp
  | cons a t ih =>
    rw [List.dropWhile_cons]
    split
    · exact le_trans ih (by simp)
    · simp

lemma dropWhile_append_of_head (p : Char → Bool) (l r : List Char)
    (h0 : l ≠ []) (h : l.dropWhile p = l) :
    (l ++ r).dropWhile p = l ++ r := by
  cases l with
  | nil => exact absurd rfl h0
  | cons a t =>
    cases hp : p a with
    | true =>
      exfalso
      rw [List.dropWhile_cons] at h
      simp only [hp, if_true] at h
      have hlen := length_dropWhile_le_char p t
      rw [h] at hlen
      simp at hlen
    | false =>
      rw [List.cons_append, List.dropWhile_cons]
      simp [hp]

lemma pystrip_of_clean (a b : String) (ha0 : a.data ≠ [])
    (ha : a.data.dropWhile isPySpace = a.data)
    (hb0 : b.data ≠ [])
    (hb : b.data.reverse.dropWhile isPySpace = b.data.reverse) :
    pystrip (a ++ " " ++ b) = a ++ " " ++ b := by
  have hdata : (a ++ " " ++ b).data = a.data ++ (' ' :: b.data) := by
    have h0 : (a ++ " " ++ b).data = (a.data ++ [' ']) ++ b.data := rfl
    rw [h0, List.append_assoc]
    rfl
  unfold pystrip pystripList
  rw [hdata]
  rw [dropWhile_append_of_head isPySpace a.data (' ' :: b.data) ha0 ha]
  have hrev : (a.data ++ (' ' :: b.data)).reverse
      = b.data.reverse ++ (' ' :: a.data.reverse) := by
    rw [List.reverse_append, List.reverse_cons]
    simp
  rw [hrev]
  rw [dropWhile_append_of_head isPySpace b.data.reverse (' ' :: a.data.reverse)
    (by simpa using hb0) hb]
  rw [← hrev, List.reverse_reverse, ← hdata]

lemma pystrip_of_allspace (s : String) (h : s.data.all isPySpace = true) :
    pystrip s = "" := by
  unfold pystrip pystripList
  have h1 : s.data.dropWhile isPySpace = [] := by
    rw [List.dropWhile_eq_nil_iff]
    intro x hx
    exact List.all_eq_true.mp h x hx
  rw [h1]
  rfl

/-- Counterexample to C5 as stated: with `firstName` absent and
`lastName = "Allen"`, the claimed template (absent field coerced to `""`,
then interpolated as `"{first} {last}"`) yields `" Allen\nQB · BUF (5)"`
with a stray leading space, but `cell_text` strips the joined name and
produces `"Allen\nQB · BUF (5)"`. -/
theorem cell_text_differs_from_template :
    cell_text halfName = "Allen\nQB · BUF (5)"
    ∧ cell_text_claim halfName = " Allen\nQB · BUF (5)"
    ∧ cell_text halfName ≠ cell_text_claim halfName := by
  refine ⟨by decide, by decide, by decide⟩

/-- C5, amended: the cell text is
`"{name}\n{position} · {team} ({overallPick})"` where the name portion is
the Python-stripped `"{first} {last}"` (so the claimed template holds
verbatim whenever both names are present with no leading/trailing
whitespace), the placeholder `"—"` is used when both name fields are blank
or missing, and the worked example renders exactly as claimed. -/
theorem cell_text_formatting :
    (∀ p : Pick, ∀ a b : String, p.first_name = some a → p.last_name = some b →
      a.data ≠ [] → a.data.dropWhile isPySpace = a.data →
      b.data ≠ [] → b.data.reverse.dropWhile isPySpace = b.data.reverse →
      cell_text p = a ++ " " ++ b ++ "\n" ++ pysafe p.position ++ " · "
        ++ pysafe p.team ++ " (" ++ toString p.overall_pick ++ ")")
    ∧ (∀ p : Pick,
        (pysafe p.first_name).data.all isPySpace = true →
        (pysafe p.last_name).data.all isPySpace = true →
        cell_text p = "—" ++ "\n" ++ pysafe p.position ++ " · "
          ++ pysafe p.team ++ " (" ++ toString p.overall_pick ++ ")")
    ∧ cell_text joshAllen = "Josh Allen\nQB · BUF (5)" := by
  refine ⟨?_, ?_, by decide⟩
  · intro p a b hfa hfb ha0 ha hb0 hb
    have hne : a ++ " " ++ b ≠ "" := by
      intro hc
      have hd := congrArg String.data hc
      have h0 : (a ++ " " ++ b).data = (a.data ++ [' ']) ++ b.data := rfl
      rw [h0] at hd
      simp at hd
    simp only [cell_text, hfa, hfb, pysafe]
    rw [pystrip_of_clean a b ha0 ha hb0 hb, if_neg hne]
  · intro p hfa hfb
    have h0 : (pysafe p.first_name ++ " " ++ pysafe p.last_name).data
        = (pysafe p.first_name).data
          ++ ([' '] ++ (pysafe p.last_name).data) := by
      have hx : (pysafe p.first_name ++ " " ++ pysafe p.last_name).data
          = ((pysafe p.first_name).data ++ [' '])
            ++ (pysafe p.last_name).data := rfl
      rw [hx, List.append_assoc]
    have hall : (pysafe p.first_name ++ " "
        ++ pysafe p.last_name).data.all isPySpace = true := by
      rw [h0, List.all_append, List.all_append, hfa, hfb]
      decide
    simp only [cell_text]
    rw [pystrip_of_allspace _ hall]
    simp

/-- Witness for `cell_text_formatting`: the clean-name branch at the
Josh Allen example and the placeholder branch at a blank-name pick. -/
theorem cell_text_formatting_witness :
    cell_text joshAllen = "Josh" ++ " " ++ "Allen" ++ "\n"
      ++ pysafe joshAllen.position ++ " · " ++ pysafe joshAllen.team
      ++ " (" ++ toString joshAllen.overall_pick ++ ")"
    ∧ cell_text blankPick = "—" ++ "\n" ++ pysafe blankPick.position ++ " · "
      ++ pysafe blankPick.team ++ " (" ++ toString blankPick.overall_pick ++ ")" :=
  ⟨cell_text_formatting.1 joshAllen "Josh" "Allen" rfl rfl (by decide)
    (by decide) (by decide) (by decide),
   cell_text_formatting.2.1 blankPick (by decide) (by decide)⟩

lemma team_to_slot_foldl (l : List (ℕ × Pick)) (init : ℤ → Option ℤ) (t : ℤ) :
    (l.foldl (fun m e => dict_update m e.2.team_id ((e.1 : ℤ) + 1)) init) t =
      match l.reverse.find? (fun e => e.2.team_id == t) with
      | some e => some ((e.1 : ℤ) + 1)
      | none => init t := by
  induction l generalizing init with
  | nil => simp
  | cons a l ih =>
    rw [List.foldl_cons, ih, List.reverse_cons, List.find?_append]
    cases hf : l.reverse.find? (fun e => e.2.team_id == t) with
    | some e => simp
    | none =>
      simp only [Option.none_or]
      cases hT : (a.2.team_id == t) with
      | true =>
        have heq : t = a.2.team_id := (beq_iff_eq.mp hT).symm
        simp [List.find?, hT, dict_update, heq]
      | false =>
        have hne : ¬ t = a.2.team_id := by
          intro hc
          rw [hc] at hT
          simp at hT
        simp [List.find?, hT, dict_update, hne]

/-- The slot lookup of the amended claim C3: among the round-1 picks sorted
ascending by `pick_in_round`, the slot of team `t` is one plus the position
of the LAST round-1 pick by `t` in that order; a team with no round-1 pick
gets no slot.  (Spec-side definition, compared against the resolver.) -/
def claimed_slot (picks : List Pick) (t : ℤ) : Option ℤ :=
  match (sortR1 picks).enum.reverse.find? (fun e => e.2.team_id == t) with
  | some e => some ((e.1 : ℤ) + 1)
  | none => none

/-- The derivation of the amended claim C3 applied to every pick. -/
def claimed_resolve (picks : List Pick) : List Pick :=
  picks.map (fun p => { p with draft_order := claimed_slot picks p.team_id })

/-- The slot lookup exactly as claim C3 states it, with FIRST-occurrence
wins for a team with several round-1 picks. -/
def claimed_slot_first (picks : List Pick) (t : ℤ) : Option ℤ :=
  match (sortR1 picks).enum.find? (fun e => e.2.team_id == t) with
  | some e => some ((e.1 : ℤ) + 1)
  | none => none

/-- The claim-C3 derivation (first-occurrence wins) applied to every
pick. -/
def claimed_resolve_first (picks : List Pick) : List Pick :=
  picks.map (fun p =>
    { p with draft_order := claimed_slot_first picks p.team_id })

lemma team_to_slot_eq_claimed (picks : List Pick) (t : ℤ) :
    team_to_slot (sortR1 picks) t = claimed_slot picks t := by
  unfold team_to_slot claimed_slot
  rw [team_to_slot_foldl]

/-- Legacy-format picks (no `draft_order`): teams A=1, B=2, C=3 with
round-1 `pick_in_round` order B(1), A(2), C(3); input order A, B, C. -/
def exBAC : List Pick :=
  [mkPick 1 2 2 1 none (some "A") none (some "RB") none,
   mkPick 1 1 1 2 none (some "B") none (some "QB") none,
   mkPick 1 3 3 3 none (some "C") none (some "WR") none]

/-- Legacy-format picks in which team 1 has two round-1 picks
(`pick_in_round` 1 and 2) and team 2 has one (`pick_in_round` 3). -/
def exDupTeam : List Pick :=
  [mkPick 1 1 1 1 none (some "A1") none (some "QB") none,
   mkPick 1 2 2 1 none (some "A2") none (some "RB") none,
   mkPick 1 3 3 2 none (some "B") none (some "WR") none]

/-- A pick list in the explicit-order format (`draft_order` present). -/
def exMixed : List Pick :=
  [mkPick 1 1 1 7 (some 3) (some "X") none (some "TE") none]

/-- Counterexample to C3 as stated: when a team has two round-1 picks the
dict comprehension keeps the LAST one — team 1 (round-1 picks at
`pick_in_round` 1 and 2) is assigned slot 2, where the claim's
"first-occurrence wins" rule would assign slot 1. -/
theorem resolver_not_first_occurrence :
    (resolve_orders exDupTeam).map (fun p => p.draft_order)
        = [some 2, some 2, some 3]
    ∧ (claimed_resolve_first exDupTeam).map (fun p => p.draft_order)
        = [some 1, some 1, some 3]
    ∧ resolve_orders exDupTeam ≠ claimed_resolve_first exDupTeam := by
  refine ⟨by decide, by decide, by decide⟩

/-- C3, amended: when every pick lacks `draft_order` the resolver equals
the claimed derivation with LAST-occurrence winning on a duplicated
`team_id` (sort round-1 picks ascending by `pick_in_round`, slot of a team
is one plus the position of its last round-1 pick, every pick mapped
through the lookup); when any pick has `draft_order`, all picks pass
through unchanged; and the worked example B(1), A(2), C(3) gets slots
B→1, A→2, C→3. -/
theorem resolve_orders_spec (picks : List Pick) :
    (picks.all (fun p => p.draft_order.isNone) = true →
      resolve_orders picks = claimed_resolve picks)
    ∧ (picks.all (fun p => p.draft_order.isNone) = false →
      resolve_orders picks = picks)
    ∧ (resolve_orders exBAC).map (fun p => p.draft_order)
        = [some 2, some 1, some 3] := by
  refine ⟨?_, ?_, by decide⟩
  · intro h
    unfold resolve_orders claimed_resolve
    rw [if_pos h]
    apply List.map_congr_left
    intro p hp
    rw [team_to_slot_eq_claimed]
  · intro h
    unfold resolve_orders
    rw [if_neg (by simp [h])]

/-- Witness for `resolve_orders_spec`: the derivation branch at the
worked example and the pass-through branch at an explicit-order list. -/
theorem resolve_orders_spec_witness :
    resolve_orders exBAC = claimed_resolve exBAC
    ∧ resolve_orders exMixed = exMixed :=
  ⟨(resolve_orders_spec exBAC).1 (by decide),
   (resolve_orders_spec exMixed).2.1 (by decide)⟩

lemma resolve_orders_ne_nil (picks : List Pick) (h : picks ≠ []) :
    resolve_orders picks ≠ [] := by
  unfold resolve_orders
  split
  · simpa using h
  · exact h

lemma pyrange_length (a b : ℤ) : (pyrange a b).length = (b - a).toNat := by
  simp [pyrange]

lemma pyrange_getElem (a b : ℤ) (i : ℕ) (hi : i < (pyrange a b).length) :
    (pyrange a b)[i] = a + (i : ℤ) := by
  simp [pyrange]

lemma build_board_eq_of (picks : List Pick) (ns mr : ℤ)
    (hne : ¬ picks.isEmpty = true)
    (hns : ((resolve_orders picks).filterMap (fun p => p.draft_order)).max?
      = some ns)
    (hmr : ((resolve_orders picks).map (fun p => p.round)).max? = some mr)
    (hnodup : ((resolve_orders picks).map coord).Nodup) :
    build_board picks = some
      { text_grid := (pyrange 1 (mr + 1)).map (fun r =>
          (pyrange 1 (ns + 1)).map (fun s =>
            textAt (resolve_orders picks) r s)),
        pos_grid := (pyrange 1 (mr + 1)).map (fun r =>
          (pyrange 1 (ns + 1)).map (fun s =>
            posAt (resolve_orders picks) r s)),
        num_slots := ns } := by
  unfold build_board
  rw [if_neg hne]
  simp only [hns, hmr]
  rw [if_pos hnodup]

/-- Legacy-format picks in which round 1 does not cover all teams: team 20
appears only in round 2. -/
def exUncovered : List Pick :=
  [mkPick 1 1 1 10 none (some "Ann") (some "A") (some "QB") (some "BUF"),
   mkPick 2 1 2 20 none (some "Bob") (some "B") (some "RB") (some "MIA")]

/-- Counterexample to C4 as stated: on `exUncovered` (round-1 picks do not
cover team 20) the code raises no `MalformedDraftOrder`-style error at all;
`build_board` succeeds and returns a partial grid — team 20's pick is
silently dropped (its derived slot is `NaN`, and the reindex to columns
`1..num_slots` drops the `NaN` column), its cell rendered as `""`. -/
theorem build_board_drops_uncovered_team :
    build_board exUncovered
      = some { text_grid := [["Ann A\nQB · BUF (1)"], [""]],
               pos_grid := [["QB"], [""]],
               num_slots := 1 }
    ∧ (resolve_orders exUncovered).map (fun p => p.draft_order)
      = [some 1, none] := by
  refine ⟨by decide, by decide⟩

/-- C4, amended: a team absent from round 1 triggers no error anywhere —
no `MalformedDraftOrder`-style report exists in the code.  The dict
lookup on the uncovered `team_id` yields `NaN` (`none`), and the resolver
silently maps each of its picks to a pick with no slot.  Whenever the
pivot's own preconditions then hold (pairwise-distinct resolved
coordinates, and at least one pick with a slot so that `int(max)` is
defined), `build_board` still succeeds, and every non-empty text-grid
cell comes from a pick whose slot is present — so the null-slotted picks
of uncovered teams are silently omitted from the grid
(`build_board_drops_uncovered_team` shows this concretely).  When those
pivot preconditions fail (e.g. two null-slotted picks of one round
collide at the `NaN` column), `build_board` fails for that unrelated
pivot reason, again without any malformed-order report. -/
theorem resolver_silent_on_uncovered_team (picks : List Pick) (p : Pick)
    (hall : picks.all (fun q => q.draft_order.isNone) = true)
    (hp : p ∈ picks)
    (ht : ∀ q ∈ sortR1 picks, q.team_id ≠ p.team_id) :
    { p with draft_order := none } ∈ resolve_orders picks
    ∧ (((resolve_orders picks).map coord).Nodup →
        (∃ q ∈ resolve_orders picks, q.draft_order.isSome = true) →
        ∃ b : BoardOut, build_board picks = some b
          ∧ ∀ i j : ℕ, i < b.text_grid.length →
              j < (b.text_grid.getD i []).length →
              (b.text_grid.getD i []).getD j "?" = ""
              ∨ ∃ q, q ∈ resolve_orders picks
                  ∧ q.round = (i : ℤ) + 1
                  ∧ q.draft_order = some ((j : ℤ) + 1)
                  ∧ (b.text_grid.getD i []).getD j "?" = cell_text q) := by
  refine ⟨?_, ?_⟩
  · unfold resolve_orders
    rw [if_pos hall]
    have hs : team_to_slot (sortR1 picks) p.team_id = none := by
      unfold team_to_slot
      rw [team_to_slot_foldl]
      cases hf : (sortR1 picks).enum.reverse.find?
          (fun e => e.2.team_id == p.team_id) with
      | none => rfl
      | some e =>
        exfalso
        have hmem := List.mem_of_find?_eq_some hf
        have hpred := List.find?_some hf
        rw [List.mem_reverse] at hmem
        have h2 : e.2 ∈ sortR1 picks := List.snd_mem_of_mem_enum hmem
        exact ht e.2 h2 (beq_iff_eq.mp hpred)
    rw [← hs]
    exact List.mem_map_of_mem _ hp
  · intro hnodup hsome
    have hpne : picks ≠ [] := List.ne_nil_of_mem hp
    have hpsne : resolve_orders picks ≠ [] := resolve_orders_ne_nil picks hpne
    obtain ⟨q0, hq0, hq0s⟩ := hsome
    have hfne : (resolve_orders picks).filterMap (fun r => r.draft_order)
        ≠ [] := by
      obtain ⟨s, hs⟩ := Option.isSome_iff_exists.mp hq0s
      have hsmem : s ∈ (resolve_orders picks).filterMap
          (fun r => r.draft_order) :=
        List.mem_filterMap.mpr ⟨q0, hq0, hs⟩
      intro hc
      rw [hc] at hsmem
      exact absurd hsmem (List.not_mem_nil s)
    obtain ⟨ns, hns⟩ : ∃ ns, ((resolve_orders picks).filterMap
        (fun r => r.draft_order)).max? = some ns := by
      cases hmm : ((resolve_orders picks).filterMap
          (fun r => r.draft_order)).max? with
      | some x => exact ⟨x, rfl⟩
      | none => exact absurd (List.max?_eq_none_iff.mp hmm) hfne
    obtain ⟨mr, hmr⟩ : ∃ mr, ((resolve_orders picks).map
        (fun r => r.round)).max? = some mr := by
      cases hmm : ((resolve_orders picks).map (fun r => r.round)).max? with
      | some x => exact ⟨x, rfl⟩
      | none =>
        have h0 := List.max?_eq_none_iff.mp hmm
        rw [List.map_eq_nil_iff] at h0
        exact absurd h0 hpsne
    have hbuild := build_board_eq_of picks ns mr (by simpa using hpne)
      hns hmr hnodup
    refine ⟨_, hbuild, ?_⟩
    intro i j hi hj
    dsimp only at hi hj ⊢
    have hirange : i < (pyrange 1 (mr + 1)).length := by
      rw [List.length_map] at hi
      exact hi
    have hrow : ((pyrange 1 (mr + 1)).map (fun r =>
        (pyrange 1 (ns + 1)).map (fun s =>
          textAt (resolve_orders picks) r s))).getD i []
        = (pyrange 1 (ns + 1)).map (fun s =>
            textAt (resolve_orders picks) (1 + (i : ℤ)) s) := by
      rw [List.getD_eq_getElem _ _ (by rw [List.length_map]; exact hirange),
        List.getElem_map, pyrange_getElem _ _ _ hirange]
    rw [hrow] at hj ⊢
    have hjrange : j < (pyrange 1 (ns + 1)).length := by
      rw [List.length_map] at hj
      exact hj
    rw [List.getD_eq_getElem _ _ (by rw [List.length_map]; exact hjrange),
      List.getElem_map, pyrange_getElem _ _ _ hjrange]
    unfold textAt
    cases hfind : (resolve_orders picks).find? (fun r =>
        r.round == (1 + (i : ℤ)) && r.draft_order == some (1 + (j : ℤ))) with
    | none =>
      simp only [hfind]
      exact Or.inl trivial
    | some q =>
      simp only [hfind]
      have hqmem := List.mem_of_find?_eq_some hfind
      have hpred := List.find?_some hfind
      simp only [Bool.and_eq_true, beq_iff_eq] at hpred
      refine Or.inr ⟨q, hqmem, by omega, ?_, rfl⟩
      rw [hpred.2]
      congr 1
      omega

/-- Witness for `resolver_silent_on_uncovered_team` at `exUncovered` and
its round-2-only pick. -/
theorem resolver_silent_on_uncovered_team_witness :
    { mkPick 2 1 2 20 none (some "Bob") (some "B") (some "RB") (some "MIA")
        with draft_order := none } ∈ resolve_orders exUncovered
    ∧ (((resolve_orders exUncovered).map coord).Nodup →
        (∃ q ∈ resolve_orders exUncovered, q.draft_order.isSome = true) →
        ∃ b : BoardOut, build_board exUncovered = some b
          ∧ ∀ i j : ℕ, i < b.text_grid.length →
              j < (b.text_grid.getD i []).length →
              (b.text_grid.getD i []).getD j "?" = ""
              ∨ ∃ q, q ∈ resolve_orders exUncovered
                  ∧ q.round = (i : ℤ) + 1
                  ∧ q.draft_order = some ((j : ℤ) + 1)
                  ∧ (b.text_grid.getD i []).getD j "?" = cell_text q) :=
  resolver_silent_on_uncovered_team exUncovered
    (mkPick 2 1 2 20 none (some "Bob") (some "B") (some "RB") (some "MIA"))
    (by decide) (by decide) (by decide)

/-- Two picks resolving to the same `(round, slot)` coordinate
(conflicting `draft_order` 1 in round 1). -/
def exCollide : List Pick :=
  [mkPick 1 1 1 1 (some 1) (some "Ann") (some "A") (some "QB") (some "BUF"),
   mkPick 1 2 2 2 (some 1) (some "Bob") (some "B") (some "RB") (some "MIA")]

/-- A three-pick variant of `exCollide` with the same round-1 collision. -/
def exCollide3 : List Pick :=
  [mkPick 1 1 1 1 (some 1) (some "Ann") (some "A") (some "QB") (some "BUF"),
   mkPick 1 2 2 2 (some 1) (some "Bob") (some "B") (some "RB") (some "MIA"),
   mkPick 2 1 3 1 (some 2) (some "Cy") (some "C") (some "WR") (some "NYJ")]

/-- Counterexample to C2 as stated: on `exCollide` — two picks both at
`(round 1, slot 1)` — grid construction FAILS (`pandas.DataFrame.pivot`
raises `ValueError` on a duplicate `(round, draft_order)` pair), so no
grids exist at all, let alone grids holding the later pick's values. -/
theorem build_board_fails_on_collision : build_board exCollide = none := by
  decide

/-- C2, amended: when two picks resolve to the same `(round, slot)`
coordinate, `build_board` does not overwrite — it fails: the duplicate
coordinate makes `DataFrame.pivot` raise, and no grid is produced. -/
theorem build_board_none_of_dup_coord (picks : List Pick)
    (h : ¬ ((resolve_orders picks).map coord).Nodup) :
    build_board picks = none := by
  unfold build_board
  split
  · rfl
  · simp only []
    split
    · rw [if_neg h]
    · rfl

/-- Witness for `build_board_none_of_dup_coord` at `exCollide3`. -/
theorem build_board_none_of_dup_coord_witness : build_board exCollide3 = none :=
  build_board_none_of_dup_coord exCollide3 (by decide)

/-- C9: with zero picks the fragment short-circuits to the "no data"
warning before any grid work (`build_board` is only reached in the other
branch); and grid construction on an empty list would indeed not produce a
board (the empty DataFrame has no columns to aggregate). -/
theorem empty_picks_short_circuit :
    draft_board_view []
      = ViewResult.warning "No draft data found for this league."
    ∧ build_board [] = none :=
  ⟨rfl, rfl⟩


/-- C1: for a valid non-empty pick set (after slot resolution every pick
has a slot, coordinates are pairwise distinct, rounds and slots are
1-based), `build_board` succeeds, both grids have exactly `maxRound` rows
(`maxRound` the maximum round) and `numSlots` columns (`numSlots` the
maximum resolved slot, returned as `num_slots`), and every `[round][slot]`
cell with no corresponding pick holds `""` in both grids. -/
theorem build_board_dimensions (picks : List Pick)
    (hne : picks ≠ [])
    (hsome : ∀ p ∈ resolve_orders picks, p.draft_order.isSome = true)
    (hnodup : ((resolve_orders picks).map coord).Nodup)
    (hround : ∀ p ∈ resolve_orders picks, 1 ≤ p.round)
    (hslot : ∀ p ∈ resolve_orders picks, ∀ s : ℤ,
      p.draft_order = some s → 1 ≤ s) :
    ∃ b : BoardOut, ∃ mr : ℤ,
      build_board picks = some b
      ∧ ((resolve_orders picks).filterMap (fun p => p.draft_order)).max?
          = some b.num_slots
      ∧ ((resolve_orders picks).map (fun p => p.round)).max? = some mr
      ∧ (b.text_grid.length : ℤ) = mr
      ∧ (b.pos_grid.length : ℤ) = mr
      ∧ (∀ row ∈ b.text_grid, (row.length : ℤ) = b.num_slots)
      ∧ (∀ row ∈ b.pos_grid, (row.length : ℤ) = b.num_slots)
      ∧ (∀ i j : ℕ, (i : ℤ) < mr → (j : ℤ) < b.num_slots →
          (∀ p ∈ resolve_orders picks,
            ¬ (p.round = (i : ℤ) + 1 ∧ p.draft_order = some ((j : ℤ) + 1))) →
          (b.text_grid.getD i []).getD j "?" = ""
          ∧ (b.pos_grid.getD i []).getD j "?" = "") := by
  have hpsne : resolve_orders picks ≠ [] := resolve_orders_ne_nil picks hne
  obtain ⟨q, qs, hq⟩ := List.exists_cons_of_ne_nil hpsne
  have hqmem : q ∈ resolve_orders picks := by
    rw [hq]
    exact List.mem_cons_self q qs
  have hfne : (resolve_orders picks).filterMap (fun p => p.draft_order)
      ≠ [] := by
    obtain ⟨s, hs⟩ := Option.isSome_iff_exists.mp (hsome q hqmem)
    have hsmem : s ∈ (resolve_orders picks).filterMap
        (fun p => p.draft_order) :=
      List.mem_filterMap.mpr ⟨q, hqmem, hs⟩
    intro hc
    rw [hc] at hsmem
    exact absurd hsmem (List.not_mem_nil s)
  obtain ⟨ns, hns⟩ : ∃ ns, ((resolve_orders picks).filterMap
      (fun p => p.draft_order)).max? = some ns := by
    cases hmm : ((resolve_orders picks).filterMap
        (fun p => p.draft_order)).max? with
    | some x => exact ⟨x, rfl⟩
    | none => exact absurd (List.max?_eq_none_iff.mp hmm) hfne
  obtain ⟨mr, hmr⟩ : ∃ mr, ((resolve_orders picks).map
      (fun p => p.round)).max? = some mr := by
    cases hmm : ((resolve_orders picks).map (fun p => p.round)).max? with
    | some x => exact ⟨x, rfl⟩
    | none =>
      have h0 := List.max?_eq_none_iff.mp hmm
      rw [List.map_eq_nil_iff] at h0
      exact absurd h0 hpsne
  have hns1 : 1 ≤ ns := by
    have hmem := List.max?_mem (fun a b => max_choice a b) hns
    obtain ⟨p, hp, hpd⟩ := List.mem_filterMap.mp hmem
    exact hslot p hp ns hpd
  have hmr1 : 1 ≤ mr := by
    have hmem := List.max?_mem (fun a b => max_choice a b) hmr
    obtain ⟨p, hp, hpr⟩ := List.mem_map.mp hmem
    rw [← hpr]
    exact hround p hp
  have hbuild := build_board_eq_of picks ns mr (by simpa using hne)
    hns hmr hnodup
  refine ⟨_, mr, hbuild, hns, hmr, ?_, ?_, ?_, ?_, ?_⟩
  · simp only [List.length_map, pyrange_length]
    omega
  · simp only [List.length_map, pyrange_length]
    omega
  · intro row hrow
    simp only [List.mem_map] at hrow
    obtain ⟨r, hr, hrw⟩ := hrow
    rw [← hrw]
    simp only [List.length_map, pyrange_length]
    omega
  · intro row hrow
    simp only [List.mem_map] at hrow
    obtain ⟨r, hr, hrw⟩ := hrow
    rw [← hrw]
    simp only [List.length_map, pyrange_length]
    omega
  · intro i j hi hj hnp
    dsimp only at hj
    have hfind : (resolve_orders picks).find? (fun p =>
        p.round == (1 + (i : ℤ)) && p.draft_order == some (1 + (j : ℤ)))
        = none := by
      rw [List.find?_eq_none]
      intro p hp
      simp only [Bool.and_eq_true, beq_iff_eq, not_and]
      intro h1 h2
      exact hnp p hp ⟨by omega, by rw [h2]; congr 1; omega⟩
    have hilen : i < ((pyrange 1 (mr + 1)).map (fun r =>
        (pyrange 1 (ns + 1)).map (fun s =>
          textAt (resolve_orders picks) r s))).length := by
      simp only [List.length_map, pyrange_length]
      omega
    have hilen2 : i < ((pyrange 1 (mr + 1)).map (fun r =>
        (pyrange 1 (ns + 1)).map (fun s =>
          posAt (resolve_orders picks) r s))).length := by
      simp only [List.length_map, pyrange_length]
      omega
    have hirange : i < (pyrange 1 (mr + 1)).length := by
      rw [pyrange_length]
      omega
    have hjrange : j < (pyrange 1 (ns + 1)).length := by
      rw [pyrange_length]
      omega
    constructor
    · rw [List.getD_eq_getElem _ _ hilen, List.getElem_map,
        pyrange_getElem _ _ _ hirange,
        List.getD_eq_getElem _ _ (by rw [List.length_map]; exact hjrange),
        List.getElem_map, pyrange_getElem _ _ _ hjrange]
      unfold textAt
      rw [hfind]
    · rw [List.getD_eq_getElem _ _ hilen2, List.getElem_map,
        pyrange_getElem _ _ _ hirange,
        List.getD_eq_getElem _ _ (by rw [List.length_map]; exact hjrange),
        List.getElem_map, pyrange_getElem _ _ _ hjrange]
      unfold posAt
      rw [hfind]

/-- A small valid explicit-order pick set: one round, two slots. -/
def exValid : List Pick :=
  [mkPick 1 1 1 1 (some 1) (some "Ann") (some "A") (some "QB") (some "BUF"),
   mkPick 1 2 2 2 (some 2) (some "Bob") (some "B") (some "RB") (some "MIA")]

/-- Witness for `build_board_dimensions` at `exValid`. -/
theorem build_board_dimensions_witness :
    ∃ b : BoardOut, ∃ mr : ℤ,
      build_board exValid = some b
      ∧ ((resolve_orders exValid).filterMap (fun p => p.draft_order)).max?
          = some b.num_slots
      ∧ ((resolve_orders exValid).map (fun p => p.round)).max? = some mr
      ∧ (b.text_grid.length : ℤ) = mr
      ∧ (b.pos_grid.length : ℤ) = mr
      ∧ (∀ row ∈ b.text_grid, (row.length : ℤ) = b.num_slots)
      ∧ (∀ row ∈ b.pos_grid, (row.length : ℤ) = b.num_slots)
      ∧ (∀ i j : ℕ, (i : ℤ) < mr → (j : ℤ) < b.num_slots →
          (∀ p ∈ resolve_orders exValid,
            ¬ (p.round = (i : ℤ) + 1 ∧ p.draft_order = some ((j : ℤ) + 1))) →
          (b.text_grid.getD i []).getD j "?" = ""
          ∧ (b.pos_grid.getD i []).getD j "?" = "") :=
  build_board_dimensions exValid (by decide) (by decide) (by decide)
    (by decide)
    (by
      intro p hp s hs
      have hre : resolve_orders exValid = exValid := by decide
      rw [hre] at hp
      fin_cases hp <;> (simp [mkPick, exValid] at hs; omega))
